import Mathlib

/-!
Verification development for the screenshot-plus-ocr repository.

Shallow embedding of the region-selection and image-cropping pipeline:

- AreaCapture (src/unnamed/part_000, with an identical inline copy in
  src/content.js): overlay lifecycle, pointer-driven rectangle selection,
  completion and cancellation callbacks.
- ImageCropper (src/unnamed/part_002, inline copy in src/content.js):
  area validation, canvas crop, dimension query.
- StorageManager (src/unnamed/part_001): persisted screenshot with a
  five-minute expiry window.
- ScreenshotCapture (src/unnamed/part_003): popup-side coordinator for
  area captures.
- The loadImage promise of ImageCropper, modelled as a small event machine
  over the load, error and timer-fire events, in both source variants
  (the modules file and the content.js copy), since the two differ on the
  error path.

JavaScript numbers that hold pixel coordinates are modelled as Int; the
DOM is reduced to the booleans the code reads back (overlay present,
selection box visible).  Callbacks are identified by numeric tokens and
every invocation is recorded in an output log together with a snapshot of
the instance state at the moment of the call.
-/

namespace AreaCapture

/-- Rectangle produced by getSelectedArea (src/unnamed/part_000 lines 272-284). -/
structure Area where
  x : Int
  y : Int
  width : Int
  height : Int
deriving DecidableEq, Repr

/-- Instance state of the AreaCapture class (constructor, part_000 lines 7-27).
DOM handles are reduced to booleans; callbacks are numeric identities. -/
structure State where
  isActive : Bool
  isDrawing : Bool
  overlay : Bool
  selectionVisible : Bool
  startX : Int
  startY : Int
  endX : Int
  endY : Int
  onCompleteCallback : Option Nat
  onCancelCallback : Option Nat
deriving DecidableEq, Repr

/-- Constructor defaults of AreaCapture. -/
def initState : State :=
  { isActive := false, isDrawing := false, overlay := false, selectionVisible := false,
    startX := 0, startY := 0, endX := 0, endY := 0,
    onCompleteCallback := none, onCancelCallback := none }

/-- Error taxonomy for start: the source throws when a session is already
active (part_000 lines 34-37). -/
inductive StartError where
  | alreadyActive
deriving DecidableEq, Repr

/-- start(onComplete, onCancel), part_000 lines 34-45.  A throw is the error
branch and leaves the state untouched; otherwise callbacks are stored, the
session becomes active and createOverlay inserts the overlay with the
selection box hidden (display none). -/
def startFn (s : State) (onComplete onCancel : Nat) : Except StartError Unit × State :=
  if s.isActive then (Except.error StartError.alreadyActive, s)
  else (Except.ok (),
    { s with onCompleteCallback := some onComplete, onCancelCallback := some onCancel,
             isActive := true, overlay := true, selectionVisible := false })

/-- removeOverlay, part_000 lines 103-112: the overlay node and the selection
box are dropped. -/
def removeOverlay (s : State) : State :=
  { s with overlay := false, selectionVisible := false }

/-- reset, part_000 lines 332-341: flags, coordinates and callbacks return to
the constructor defaults. -/
def reset (s : State) : State :=
  { s with isActive := false, isDrawing := false,
           startX := 0, startY := 0, endX := 0, endY := 0,
           onCompleteCallback := none, onCancelCallback := none }

/-- stop, part_000 lines 50-58: a no-op when inactive, otherwise detach
listeners, remove the overlay and reset the state. -/
def stop (s : State) : State :=
  if s.isActive then reset (removeOverlay s) else s

/-- A recorded callback invocation: which callback, with which argument. -/
inductive Fired where
  | complete (cb : Nat) (area : Area)
  | cancel (cb : Nat)
deriving DecidableEq, Repr

/-- A log entry: the invocation plus a snapshot of the instance state at the
moment the callback runs. -/
abbrev Fire := Fired × State

/-- cancel, part_000 lines 63-69: capture the callback, stop, then invoke it. -/
def cancelFn (s : State) : State × List Fire :=
  let s1 := stop s
  match s.onCancelCallback with
  | some cb => (s1, [(Fired.cancel cb, s1)])
  | none => (s1, [])

/-- getSelectedArea, part_000 lines 272-284. -/
def getSelectedArea (s : State) : Area :=
  { x := min s.startX s.endX, y := min s.startY s.endY,
    width := |s.endX - s.startX|, height := |s.endY - s.startY| }

/-- completeSelection, part_000 lines 290-296: capture the callback, stop,
then invoke it with the area. -/
def completeSelection (s : State) (area : Area) : State × List Fire :=
  let s1 := stop s
  match s.onCompleteCallback with
  | some cb => (s1, [(Fired.complete cb area, s1)])
  | none => (s1, [])

/-- External stimuli handled by the class: pointer events, the Escape key,
and the public cancel and stop methods. -/
inductive Event where
  | mouseDown (x y : Int)
  | mouseMove (x y : Int)
  | mouseUp
  | keyEscape
  | cancelCall
  | stopCall
deriving DecidableEq, Repr

/-- handleMouseDown, part_000 lines 192-205. -/
def handleMouseDown (s : State) (x y : Int) : State × List Fire :=
  if s.isActive then
    ({ s with isDrawing := true, startX := x, startY := y, endX := x, endY := y,
              selectionVisible := true }, [])
  else (s, [])

/-- handleMouseMove, part_000 lines 210-217. -/
def handleMouseMove (s : State) (x y : Int) : State × List Fire :=
  if s.isActive && s.isDrawing then ({ s with endX := x, endY := y }, [])
  else (s, [])

/-- handleMouseUp, part_000 lines 222-237: stop drawing, evaluate the area;
a selection under 10 px in either dimension shows a transient error, hides
the selection box and returns with the session still active. -/
def handleMouseUp (s : State) : State × List Fire :=
  if s.isActive && s.isDrawing then
    let s1 := { s with isDrawing := false }
    let area := getSelectedArea s1
    if area.width < 10 ∨ area.height < 10 then
      ({ s1 with selectionVisible := false }, [])
    else completeSelection s1 area
  else (s, [])

/-- handleKeyDown restricted to the Escape key, part_000 lines 242-249. -/
def handleKeyDown (s : State) : State × List Fire :=
  if s.isActive then cancelFn s else (s, [])

/-- One event step of the class. -/
def step (s : State) : Event → State × List Fire
  | Event.mouseDown x y => handleMouseDown s x y
  | Event.mouseMove x y => handleMouseMove s x y
  | Event.mouseUp => handleMouseUp s
  | Event.keyEscape => handleKeyDown s
  | Event.cancelCall => cancelFn s
  | Event.stopCall => (stop s, [])

/-- Run a list of events, concatenating the callback logs. -/
def runEvents : State → List Event → State × List Fire
  | s, [] => (s, [])
  | s, e :: es =>
    let r := step s e
    let rest := runEvents r.1 es
    (rest.1, r.2 ++ rest.2)

/-- The state right after a successful start on a fresh instance, with
callback identities 1 (onComplete) and 2 (onCancel). -/
def startedState : State :=
  { initState with isActive := true, overlay := true,
                   onCompleteCallback := some 1, onCancelCallback := some 2 }

/-- Last element of a list of points, with a default for the empty list. -/
def lastD : List (Int × Int) → Int × Int → Int × Int
  | [], d => d
  | p :: ps, _ => lastD ps p

/-- The state a session leaves behind after stop: inactive, overlay removed,
callbacks cleared. -/
def tornDown (s : State) : Prop :=
  s.isActive = false ∧ s.isDrawing = false ∧ s.overlay = false ∧
  s.onCompleteCallback = none ∧ s.onCancelCallback = none

/-- Reachability invariant: an inactive instance holds no callbacks (the
constructor starts this way and reset clears both together). -/
def callbacksClearedWhenInactive (s : State) : Prop :=
  s.isActive = false → s.onCompleteCallback = none ∧ s.onCancelCallback = none

/-- Pointer events carrying only non-negative client coordinates. -/
def evNonneg : Event → Prop
  | Event.mouseDown x y => 0 ≤ x ∧ 0 ≤ y
  | Event.mouseMove x y => 0 ≤ x ∧ 0 ≤ y
  | _ => True

/-- All stored coordinates are non-negative. -/
def coordsNonneg (s : State) : Prop :=
  0 ≤ s.startX ∧ 0 ≤ s.startY ∧ 0 ≤ s.endX ∧ 0 ≤ s.endY

end AreaCapture

namespace ImageCropper

/-- A decoded raster image: pixel dimensions plus an abstract pixel map. -/
structure RasterImage where
  width : Int
  height : Int
  pix : Int → Int → Int

/-- A PNG data URL.  toDataURL followed by decoding is lossless for PNG, so
the encoded form is modelled as carrying the raster it encodes. -/
structure DataUrl where
  img : RasterImage

/-- An area object as received over the wire: each property is present and
numeric (some) or missing / non-numeric (none).  Mirrors the checks of
isValidArea, part_002 lines 45-66. -/
structure JsArea where
  x : Option Int
  y : Option Int
  width : Option Int
  height : Option Int
deriving DecidableEq, Repr

/-- isValidArea, part_002 lines 45-66: all four properties present and
numeric, dimensions positive, coordinates non-negative. -/
def isValidArea (a : JsArea) : Bool :=
  match a.x, a.y, a.width, a.height with
  | some x, some y, some w, some h =>
    if w ≤ 0 ∨ h ≤ 0 then false
    else if x < 0 ∨ y < 0 then false
    else true
  | _, _, _, _ => false

/-- Error taxonomy of the crop path: Invalid area dimensions (part_002 line
29) and Crop area extends beyond image boundaries (part_002 line 108). -/
inductive CropError where
  | invalidArea
  | boundsExceeded
deriving DecidableEq, Repr

/-- performCrop, part_002 lines 105-136: reject when the area extends past
the source bounds, otherwise draw exactly the requested sub-rectangle onto
a canvas of size width by height and encode it as PNG. -/
def performCrop (img : RasterImage) (x y w h : Int) : Except CropError DataUrl :=
  if x + w > img.width ∨ y + h > img.height then Except.error CropError.boundsExceeded
  else Except.ok ⟨{ width := w, height := h, pix := fun i j => img.pix (x + i) (y + j) }⟩

/-- cropImage on an already decoded source image, part_002 lines 19-38:
validate the area, then performCrop.  The match default is unreachable
because isValidArea guarantees all four properties are present. -/
def cropCore (img : RasterImage) (a : JsArea) : Except CropError DataUrl :=
  if isValidArea a then
    match a.x, a.y, a.width, a.height with
    | some x, some y, some w, some h => performCrop img x y w h
    | _, _, _, _ => Except.error CropError.invalidArea
  else Except.error CropError.invalidArea

/-- Dimension record returned by getImageDimensions, part_002 lines 143-153. -/
structure Dim where
  width : Int
  height : Int
deriving DecidableEq, Repr

/-- getImageDimensions on the decode-success path, part_002 lines 143-153:
decode the data URL and report the width and height of the decoded image. -/
def getImageDimensions (u : DataUrl) : Dim := ⟨u.img.width, u.img.height⟩

/-- The area object AreaCapture hands to its onComplete callback, as seen by
ImageCropper: all four properties present and numeric. -/
def toJsArea (a : AreaCapture.Area) : JsArea :=
  ⟨some a.x, some a.y, some a.width, some a.height⟩

/-- A concrete 100 by 80 source image used to instantiate theorems. -/
def sampleImage : RasterImage := ⟨100, 80, fun i j => i + 2 * j⟩

end ImageCropper

namespace StorageManager

/-- screenshotExpiryTime, part_001 line 10: five minutes in milliseconds. -/
def screenshotExpiryTime : Int := 5 * 60 * 1000

/-- The chrome.storage.local keys the manager touches.  content.js also
stores screenshotArea next to the pair. -/
structure LocalStorage where
  latestScreenshot : Option String
  screenshotTimestamp : Option Int
  screenshotArea : Option AreaCapture.Area
deriving DecidableEq, Repr

/-- The record getLatestScreenshot returns on success, part_001 lines 161-165. -/
structure ScreenshotRecord where
  imageData : String
  timestamp : Int
  ageMs : Int
deriving DecidableEq, Repr

/-- clearScreenshot, part_001 lines 176-184: remove the two keys (the
optional screenshotArea key is not in the removal list). -/
def clearScreenshot (st : LocalStorage) : LocalStorage :=
  { st with latestScreenshot := none, screenshotTimestamp := none }

/-- getLatestScreenshot, part_001 lines 143-170: absent or falsy values
read as null without clearing; an age above the expiry window clears the
pair and reads as null; otherwise the record is returned.  JavaScript
truthiness makes the empty string and the timestamp 0 read as absent. -/
def getLatestScreenshot (st : LocalStorage) (now : Int) :
    Option ScreenshotRecord × LocalStorage :=
  match st.latestScreenshot, st.screenshotTimestamp with
  | some data, some ts =>
    if data = "" ∨ ts = 0 then (none, st)
    else
      let age := now - ts
      if age > screenshotExpiryTime then (none, clearScreenshot st)
      else (some ⟨data, ts, age⟩, st)
  | _, _ => (none, st)

end StorageManager

namespace ScreenshotCapture

/-- Instance state of ScreenshotCapture, part_003: the in-flight flag and
the stored promise callbacks of the pending captureArea call, identified by
a numeric token. -/
structure CapState where
  isCapturing : Bool
  currentCallback : Option Nat
deriving DecidableEq, Repr

/-- Error taxonomy of captureArea, part_003 lines 161-205. -/
inductive CapError where
  | captureInProgress
  | noActiveTab
  | cannotCommunicate
  | startFailed
deriving DecidableEq, Repr

/-- What the synchronous part of a captureArea call does to its promise. -/
inductive CallOutcome where
  | pending
  | rejected (e : CapError)
deriving DecidableEq, Repr

/-- The synchronous opening of captureArea, part_003 lines 161-171: reject at
once when isCapturing is set, otherwise store the callbacks and issue the
asynchronous tab query; isCapturing is NOT set here. -/
def captureAreaCall (s : CapState) (cb : Nat) : CapState × CallOutcome :=
  if s.isCapturing then (s, CallOutcome.rejected CapError.captureInProgress)
  else ({ s with currentCallback := some cb }, CallOutcome.pending)

/-- The asynchronous start handshake of captureArea, part_003 lines 188-201:
only a successful startCapture response sets isCapturing. -/
def startResponse (s : CapState) (ok : Bool) : CapState × Option CapError :=
  if ok then ({ s with isCapturing := true }, none)
  else (s, some CapError.startFailed)

/-- handleAreaCaptureComplete, part_003 lines 211-219. -/
def handleAreaCaptureComplete (s : CapState) : CapState :=
  { s with isCapturing := false, currentCallback := none }

end ScreenshotCapture

namespace ImageLoader

/-- The decode timeout of loadImage, part_002 line 88: ten seconds. -/
def loadTimeoutMs : Int := 10000

/-- How the loadImage promise settled, if it has. -/
inductive LoadOutcome where
  | resolved
  | decodeError
  | timedOut
deriving DecidableEq, Repr

/-- State of one loadImage call: the promise settlement and whether the
setTimeout timer installed by the call is still pending. -/
structure LoadState where
  settled : Option LoadOutcome
  timerPending : Bool
deriving DecidableEq, Repr

/-- Right after loadImage runs its executor: promise pending, timer armed. -/
def initLoad : LoadState := ⟨none, true⟩

/-- Promise semantics: the first settlement wins, later ones are ignored. -/
def settle (s : LoadState) (o : LoadOutcome) : LoadState :=
  match s.settled with
  | some _ => s
  | none => { s with settled := some o }

/-- The three events that can reach the handlers of a loadImage call. -/
inductive LoadEvent where
  | imgLoad
  | imgError
  | timerFire
deriving DecidableEq, Repr

/-- loadImage of src/unnamed/part_002 lines 73-97: the effective onload
handler (the second assignment, line 90) clears the timer and resolves; the
onerror handler (line 81) rejects WITHOUT clearing the timer; the timer, if
still pending, fires after ten seconds and rejects with the timeout error. -/
def stepModule (s : LoadState) : LoadEvent → LoadState
  | LoadEvent.imgLoad => settle { s with timerPending := false } LoadOutcome.resolved
  | LoadEvent.imgError => settle s LoadOutcome.decodeError
  | LoadEvent.timerFire =>
    if s.timerPending then settle { s with timerPending := false } LoadOutcome.timedOut
    else s

/-- loadImage of the inline copy in src/content.js lines 257-271: identical
except that onerror also clears the timer before rejecting. -/
def stepInline (s : LoadState) : LoadEvent → LoadState
  | LoadEvent.imgLoad => settle { s with timerPending := false } LoadOutcome.resolved
  | LoadEvent.imgError => settle { s with timerPending := false } LoadOutcome.decodeError
  | LoadEvent.timerFire =>
    if s.timerPending then settle { s with timerPending := false } LoadOutcome.timedOut
    else s

/-- Run a loadImage call of the modules file over a sequence of events. -/
def runModule (evs : List LoadEvent) : LoadState := evs.foldl stepModule initLoad

/-- Run a loadImage call of the content.js copy over a sequence of events. -/
def runInline (evs : List LoadEvent) : LoadState := evs.foldl stepInline initLoad

end ImageLoader

/-! ## Helper lemmas -/

/-- Folding mouseMove events over a drawing state only rewrites the end
point, which finishes at the last move (or stays put when there are none). -/
theorem foldl_mouseMove_eq (moves : List (Int × Int)) (s : AreaCapture.State)
    (ha : s.isActive = true) (hd : s.isDrawing = true) :
    moves.foldl (fun t p => (AreaCapture.step t (AreaCapture.Event.mouseMove p.1 p.2)).1) s =
      { s with endX := (AreaCapture.lastD moves (s.endX, s.endY)).1,
               endY := (AreaCapture.lastD moves (s.endX, s.endY)).2 } := by
  induction moves generalizing s with
  | nil => simp [AreaCapture.lastD]
  | cons p ps ih =>
    simp only [List.foldl_cons]
    have hstep : (AreaCapture.step s (AreaCapture.Event.mouseMove p.1 p.2)).1 =
        { s with endX := p.1, endY := p.2 } := by
      simp [AreaCapture.step, AreaCapture.handleMouseMove, ha, hd]
    rw [hstep, ih { s with endX := p.1, endY := p.2 } ha hd]
    simp [AreaCapture.lastD]

/-! ## C1: the derived rectangle -/

/-- Claim C1: for every pointer-driven selection that presses at
(startX, startY) and then moves through any path ending at (endX, endY),
getSelectedArea reports x = min, y = min, width and height the absolute
coordinate differences. -/
theorem c1_selected_area_formula (s0 : AreaCapture.State) (ha : s0.isActive = true)
    (sx sy : Int) (moves : List (Int × Int)) :
    AreaCapture.getSelectedArea
      (moves.foldl (fun t p => (AreaCapture.step t (AreaCapture.Event.mouseMove p.1 p.2)).1)
        (AreaCapture.step s0 (AreaCapture.Event.mouseDown sx sy)).1) =
    { x := min sx (AreaCapture.lastD moves (sx, sy)).1,
      y := min sy (AreaCapture.lastD moves (sx, sy)).2,
      width := |(AreaCapture.lastD moves (sx, sy)).1 - sx|,
      height := |(AreaCapture.lastD moves (sx, sy)).2 - sy| } := by
  have hdown : (AreaCapture.step s0 (AreaCapture.Event.mouseDown sx sy)).1 =
      { s0 with isDrawing := true, startX := sx, startY := sy, endX := sx, endY := sy,
                selectionVisible := true } := by
    simp [AreaCapture.step, AreaCapture.handleMouseDown, ha]
  rw [hdown,
    foldl_mouseMove_eq moves
      { s0 with isDrawing := true, startX := sx, startY := sy, endX := sx, endY := sy,
                selectionVisible := true } ha rfl]
  rfl

/-- Witness for C1: the spec scenario, a drag from (50,100) to (200,300),
yields the rectangle with x 50, y 100, width 150, height 200. -/
theorem c1_witness :
    AreaCapture.getSelectedArea
      ([((200 : Int), (300 : Int))].foldl
        (fun t p => (AreaCapture.step t (AreaCapture.Event.mouseMove p.1 p.2)).1)
        (AreaCapture.step AreaCapture.startedState (AreaCapture.Event.mouseDown 50 100)).1) =
      { x := 50, y := 100, width := 150, height := 200 } := by
  rw [c1_selected_area_formula AreaCapture.startedState rfl 50 100 [(200, 300)]]
  decide

/-! ## C4: selections under 10 px are rejected in place -/

/-- Claim C4: a pointer-up on a drawing session whose rectangle is under
10 px in either dimension invokes neither callback (empty log), hides the
selection box, and leaves the session active with drawing off, so the user
can retry; this includes a pointer-up with zero movement. -/
theorem c4_small_selection_rejected (s : AreaCapture.State)
    (ha : s.isActive = true) (hd : s.isDrawing = true)
    (hsmall : (AreaCapture.getSelectedArea s).width < 10 ∨
      (AreaCapture.getSelectedArea s).height < 10) :
    AreaCapture.step s AreaCapture.Event.mouseUp =
      ({ s with isDrawing := false, selectionVisible := false }, []) ∧
    (AreaCapture.step s AreaCapture.Event.mouseUp).1.isActive = true := by
  have h1 : AreaCapture.step s AreaCapture.Event.mouseUp =
      ({ s with isDrawing := false, selectionVisible := false }, []) := by
    obtain ⟨act, dr, ov, sv, x1, y1, x2, y2, k1, k2⟩ := s
    subst ha
    subst hd
    have hsmall2 :
        (AreaCapture.getSelectedArea
          ⟨true, false, ov, sv, x1, y1, x2, y2, k1, k2⟩).width < 10 ∨
        (AreaCapture.getSelectedArea
          ⟨true, false, ov, sv, x1, y1, x2, y2, k1, k2⟩).height < 10 := hsmall
    show AreaCapture.handleMouseUp _ = _
    unfold AreaCapture.handleMouseUp
    simp only [Bool.and_self, if_true]
    rw [if_pos hsmall2]
  refine ⟨h1, ?_⟩
  rw [h1]
  exact ha

/-- Witness for C4: pointer-down at (0,0) followed at once by pointer-up
(zero movement) fires nothing and keeps the session active. -/
theorem c4_witness :
    (AreaCapture.step
      (AreaCapture.step AreaCapture.startedState (AreaCapture.Event.mouseDown 0 0)).1
      AreaCapture.Event.mouseUp).2 = [] ∧
    (AreaCapture.step
      (AreaCapture.step AreaCapture.startedState (AreaCapture.Event.mouseDown 0 0)).1
      AreaCapture.Event.mouseUp).1.isActive = true := by
  have h := c4_small_selection_rejected
    (AreaCapture.step AreaCapture.startedState (AreaCapture.Event.mouseDown 0 0)).1
    (by decide) (by decide) (by decide)
  exact ⟨by rw [h.1], h.2⟩

/-! ## C6: start while active fails and changes nothing -/

/-- Claim C6: calling start while a session is active throws the
AlreadyActiveError and leaves the instance state unchanged, so the new
callbacks are never stored and can never be invoked. -/
theorem c6_start_while_active (s : AreaCapture.State) (h : s.isActive = true)
    (a b : Nat) :
    AreaCapture.startFn s a b =
      (Except.error AreaCapture.StartError.alreadyActive, s) := by
  simp [AreaCapture.startFn, h]

/-- Witness for C6 on a freshly started session. -/
theorem c6_witness :
    AreaCapture.startFn AreaCapture.startedState 7 8 =
      (Except.error AreaCapture.StartError.alreadyActive, AreaCapture.startedState) :=
  c6_start_while_active AreaCapture.startedState rfl 7 8

/-! ## C8: coordinator re-entrancy -/

/-- Counterexample to claim C8 as stated: two consecutive captureArea calls
with no completion of the first (and no intervening asynchronous start
response) do NOT fail the second with CaptureInProgressError — isCapturing
is only set inside the asynchronous startCapture response handler, so the
second call also goes pending and overwrites the stored callback of the
first. -/
theorem c8_counterexample :
    (ScreenshotCapture.captureAreaCall
      (ScreenshotCapture.captureAreaCall ⟨false, none⟩ 1).1 2).2 =
        ScreenshotCapture.CallOutcome.pending ∧
    (ScreenshotCapture.captureAreaCall
      (ScreenshotCapture.captureAreaCall ⟨false, none⟩ 1).1 2).2 ≠
        ScreenshotCapture.CallOutcome.rejected
          ScreenshotCapture.CapError.captureInProgress ∧
    (ScreenshotCapture.captureAreaCall ⟨false, none⟩ 1).1.currentCallback = some 1 ∧
    (ScreenshotCapture.captureAreaCall
      (ScreenshotCapture.captureAreaCall ⟨false, none⟩ 1).1 2).1.currentCallback = some 2 := by
  decide

/-- Claim C8 as amended: once the asynchronous start handshake of a first
captureArea call has set isCapturing and the capture has not completed, any
further captureArea call is rejected at once with CaptureInProgressError
and the state is left unchanged. -/
theorem c8_second_call_rejected_when_capturing (s : ScreenshotCapture.CapState)
    (h : s.isCapturing = true) (cb : Nat) :
    ScreenshotCapture.captureAreaCall s cb =
      (s, ScreenshotCapture.CallOutcome.rejected
            ScreenshotCapture.CapError.captureInProgress) := by
  simp [ScreenshotCapture.captureAreaCall, h]

/-- Witness for the amended C8: first call, successful start response, then
a second call, which is rejected. -/
theorem c8_witness :
    ScreenshotCapture.captureAreaCall
      (ScreenshotCapture.startResponse
        (ScreenshotCapture.captureAreaCall ⟨false, none⟩ 1).1 true).1 2 =
      ((ScreenshotCapture.startResponse
        (ScreenshotCapture.captureAreaCall ⟨false, none⟩ 1).1 true).1,
       ScreenshotCapture.CallOutcome.rejected
         ScreenshotCapture.CapError.captureInProgress) :=
  c8_second_call_rejected_when_capturing _ rfl 2

/-! ## C9: loadImage settlement and the pending timer -/

/-- Claim C9, settled against the code: the timeout path rejects with the
timeout error and the decode-error path rejects with the decode error in
both variants, but in the modules file (src/unnamed/part_002) the onerror
handler omits clearTimeout, so after the decode-error rejection the
ten-second timer is still pending — the content.js copy clears it.  The
first conjunct exhibits the failing run of the claim. -/
theorem c9_timer_leak_at_decode_error :
    ImageLoader.runModule [ImageLoader.LoadEvent.imgError] =
      ⟨some ImageLoader.LoadOutcome.decodeError, true⟩ ∧
    ImageLoader.runInline [ImageLoader.LoadEvent.imgError] =
      ⟨some ImageLoader.LoadOutcome.decodeError, false⟩ ∧
    ImageLoader.runModule [ImageLoader.LoadEvent.timerFire] =
      ⟨some ImageLoader.LoadOutcome.timedOut, false⟩ ∧
    ImageLoader.runModule [ImageLoader.LoadEvent.imgLoad] =
      ⟨some ImageLoader.LoadOutcome.resolved, false⟩ ∧
    ImageLoader.runInline [ImageLoader.LoadEvent.imgLoad] =
      ⟨some ImageLoader.LoadOutcome.resolved, false⟩ := by
  decide

/-! ## C5: callback discipline over whole sessions -/

/-- Unfolding equation for runEvents on nil. -/
theorem runEvents_nil (s : AreaCapture.State) :
    AreaCapture.runEvents s [] = (s, []) := rfl

/-- Unfolding equation for runEvents on cons. -/
theorem runEvents_cons (s : AreaCapture.State) (e : AreaCapture.Event)
    (es : List AreaCapture.Event) :
    AreaCapture.runEvents s (e :: es) =
      ((AreaCapture.runEvents (AreaCapture.step s e).1 es).1,
       (AreaCapture.step s e).2 ++
         (AreaCapture.runEvents (AreaCapture.step s e).1 es).2) := rfl

/-- An inactive instance whose cancel callback is cleared absorbs every
event: nothing changes and nothing fires. -/
theorem step_inactive_eq (s : AreaCapture.State) (e : AreaCapture.Event)
    (h1 : s.isActive = false) (h2 : s.onCancelCallback = none) :
    AreaCapture.step s e = (s, []) := by
  cases e <;>
    simp [AreaCapture.step, AreaCapture.handleMouseDown, AreaCapture.handleMouseMove,
      AreaCapture.handleMouseUp, AreaCapture.handleKeyDown, AreaCapture.cancelFn,
      AreaCapture.stop, h1, h2]

/-- Stopping an active session lands exactly on the constructor defaults. -/
theorem stop_active_eq (s : AreaCapture.State) (ha : s.isActive = true) :
    AreaCapture.stop s = AreaCapture.initState := by
  simp [AreaCapture.stop, ha, AreaCapture.reset, AreaCapture.removeOverlay,
    AreaCapture.initState]

/-- One step preserves the reachability invariant, fires at most one
callback, and any fired callback sees the already torn-down state, which is
also the post-state of the step. -/
theorem step_fires (s : AreaCapture.State) (e : AreaCapture.Event)
    (hinv : AreaCapture.callbacksClearedWhenInactive s) :
    AreaCapture.callbacksClearedWhenInactive (AreaCapture.step s e).1 ∧
    (AreaCapture.step s e).2.length ≤ 1 ∧
    ∀ f ∈ (AreaCapture.step s e).2,
      AreaCapture.tornDown f.2 ∧ f.2 = (AreaCapture.step s e).1 := by
  obtain ⟨act, dr, ov, sv, x1, y1, x2, y2, k1, k2⟩ := s
  cases act with
  | false =>
    have h2 : k2 = none := (hinv rfl).2
    subst h2
    rw [step_inactive_eq _ e rfl rfl]
    exact ⟨hinv, by simp, by simp⟩
  | true =>
    cases e with
    | mouseDown x y =>
      refine ⟨?_, ?_, ?_⟩ <;>
        simp [AreaCapture.callbacksClearedWhenInactive, AreaCapture.step,
          AreaCapture.handleMouseDown]
    | mouseMove x y =>
      cases dr <;>
        refine ⟨?_, ?_, ?_⟩ <;>
          simp [AreaCapture.callbacksClearedWhenInactive, AreaCapture.step,
            AreaCapture.handleMouseMove]
    | mouseUp =>
      cases dr with
      | false =>
        refine ⟨?_, ?_, ?_⟩ <;>
          simp [AreaCapture.callbacksClearedWhenInactive, AreaCapture.step,
            AreaCapture.handleMouseUp]
      | true =>
        by_cases hsm :
          (AreaCapture.getSelectedArea
            ⟨true, false, ov, sv, x1, y1, x2, y2, k1, k2⟩).width < 10 ∨
          (AreaCapture.getSelectedArea
            ⟨true, false, ov, sv, x1, y1, x2, y2, k1, k2⟩).height < 10
        · have hstep : AreaCapture.step
              ⟨true, true, ov, sv, x1, y1, x2, y2, k1, k2⟩ AreaCapture.Event.mouseUp =
              (⟨true, false, ov, false, x1, y1, x2, y2, k1, k2⟩, []) := by
            show AreaCapture.handleMouseUp _ = _
            unfold AreaCapture.handleMouseUp
            simp only [Bool.and_self, if_true]
            rw [if_pos hsm]
          rw [hstep]
          refine ⟨?_, ?_, ?_⟩ <;>
            simp [AreaCapture.callbacksClearedWhenInactive]
        · cases k1 with
          | none =>
            have hstep : AreaCapture.step
                ⟨true, true, ov, sv, x1, y1, x2, y2, none, k2⟩ AreaCapture.Event.mouseUp =
                (AreaCapture.initState, []) := by
              show AreaCapture.handleMouseUp _ = _
              unfold AreaCapture.handleMouseUp
              simp only [Bool.and_self, if_true]
              rw [if_neg hsm]
              rfl
            rw [hstep]
            refine ⟨?_, ?_, ?_⟩ <;>
              simp [AreaCapture.callbacksClearedWhenInactive, AreaCapture.initState]
          | some cb =>
            have hstep : AreaCapture.step
                ⟨true, true, ov, sv, x1, y1, x2, y2, some cb, k2⟩ AreaCapture.Event.mouseUp =
                (AreaCapture.initState,
                 [(AreaCapture.Fired.complete cb
                     (AreaCapture.getSelectedArea
                       ⟨true, false, ov, sv, x1, y1, x2, y2, some cb, k2⟩),
                   AreaCapture.initState)]) := by
              show AreaCapture.handleMouseUp _ = _
              unfold AreaCapture.handleMouseUp
              simp only [Bool.and_self, if_true]
              rw [if_neg hsm]
              rfl
            rw [hstep]
            refine ⟨?_, ?_, ?_⟩
            · simp [AreaCapture.callbacksClearedWhenInactive, AreaCapture.initState]
            · simp
            · intro f hf
              simp only [List.mem_singleton] at hf
              subst hf
              exact ⟨⟨rfl, rfl, rfl, rfl, rfl⟩, rfl⟩
    | keyEscape =>
      cases k2 with
      | none =>
        have hstep : AreaCapture.step
            ⟨true, dr, ov, sv, x1, y1, x2, y2, k1, none⟩ AreaCapture.Event.keyEscape =
            (AreaCapture.initState, []) := rfl
        rw [hstep]
        refine ⟨?_, ?_, ?_⟩ <;>
          simp [AreaCapture.callbacksClearedWhenInactive, AreaCapture.initState]
      | some cb =>
        have hstep : AreaCapture.step
            ⟨true, dr, ov, sv, x1, y1, x2, y2, k1, some cb⟩ AreaCapture.Event.keyEscape =
            (AreaCapture.initState,
             [(AreaCapture.Fired.cancel cb, AreaCapture.initState)]) := rfl
        rw [hstep]
        refine ⟨?_, ?_, ?_⟩
        · simp [AreaCapture.callbacksClearedWhenInactive, AreaCapture.initState]
        · simp
        · intro f hf
          simp only [List.mem_singleton] at hf
          subst hf
          exact ⟨⟨rfl, rfl, rfl, rfl, rfl⟩, rfl⟩
    | cancelCall =>
      cases k2 with
      | none =>
        have hstep : AreaCapture.step
            ⟨true, dr, ov, sv, x1, y1, x2, y2, k1, none⟩ AreaCapture.Event.cancelCall =
            (AreaCapture.initState, []) := rfl
        rw [hstep]
        refine ⟨?_, ?_, ?_⟩ <;>
          simp [AreaCapture.callbacksClearedWhenInactive, AreaCapture.initState]
      | some cb =>
        have hstep : AreaCapture.step
            ⟨true, dr, ov, sv, x1, y1, x2, y2, k1, some cb⟩ AreaCapture.Event.cancelCall =
            (AreaCapture.initState,
             [(AreaCapture.Fired.cancel cb, AreaCapture.initState)]) := rfl
        rw [hstep]
        refine ⟨?_, ?_, ?_⟩
        · simp [AreaCapture.callbacksClearedWhenInactive, AreaCapture.initState]
        · simp
        · intro f hf
          simp only [List.mem_singleton] at hf
          subst hf
          exact ⟨⟨rfl, rfl, rfl, rfl, rfl⟩, rfl⟩
    | stopCall =>
      have hstep : AreaCapture.step
          ⟨true, dr, ov, sv, x1, y1, x2, y2, k1, k2⟩ AreaCapture.Event.stopCall =
          (AreaCapture.initState, []) := rfl
      rw [hstep]
      refine ⟨?_, ?_, ?_⟩ <;>
        simp [AreaCapture.callbacksClearedWhenInactive, AreaCapture.initState]

/-- An inactive instance with cleared cancel callback absorbs whole event
lists: final state unchanged, empty log. -/
theorem runEvents_absorb (es : List AreaCapture.Event) (s : AreaCapture.State)
    (h1 : s.isActive = false) (h2 : s.onCancelCallback = none) :
    AreaCapture.runEvents s es = (s, []) := by
  induction es with
  | nil => rfl
  | cons e es ih =>
    rw [runEvents_cons, step_inactive_eq s e h1 h2]
    simp [ih]

/-- Main invariant: from any state satisfying the reachability invariant,
any event list fires at most one callback, and every fired callback sees a
torn-down snapshot. -/
theorem runEvents_inv (es : List AreaCapture.Event) (s : AreaCapture.State)
    (hinv : AreaCapture.callbacksClearedWhenInactive s) :
    (AreaCapture.runEvents s es).2.length ≤ 1 ∧
    ∀ f ∈ (AreaCapture.runEvents s es).2, AreaCapture.tornDown f.2 := by
  induction es generalizing s with
  | nil => simp [runEvents_nil]
  | cons e es ih =>
    obtain ⟨hinv1, hlen1, hf1⟩ := step_fires s e hinv
    by_cases hnil : (AreaCapture.step s e).2 = []
    · have hrest := ih (AreaCapture.step s e).1 hinv1
      rw [runEvents_cons, hnil]
      simpa using hrest
    · obtain ⟨f, fs, hcons⟩ : ∃ f fs, (AreaCapture.step s e).2 = f :: fs := by
        cases h : (AreaCapture.step s e).2 with
        | nil => exact absurd h hnil
        | cons a l => exact ⟨a, l, rfl⟩
      have hfs : fs = [] := by
        cases fs with
        | nil => rfl
        | cons b l => rw [hcons] at hlen1; simp at hlen1
      subst hfs
      have hf := hf1 f (by rw [hcons]; exact List.mem_singleton_self f)
      have htorn : AreaCapture.tornDown (AreaCapture.step s e).1 := hf.2 ▸ hf.1
      have habs := runEvents_absorb es (AreaCapture.step s e).1 htorn.1 htorn.2.2.2.2
      rw [runEvents_cons, hcons, habs]
      refine ⟨by simp, ?_⟩
      intro g hg
      simp only [List.append_nil, List.mem_singleton] at hg
      subst hg
      exact hf.1

/-- Claim C5: over any event list on a freshly started session, at most one
callback fires; every callback that fires sees the already torn-down state
(overlay removed, listeners conceptually detached, state reset), so start
succeeds again from inside the callback; and the terminating transitions
themselves (Escape while active, pointer-up with a large enough rectangle)
each fire their callback exactly once. -/
theorem c5_single_callback_after_teardown (es : List AreaCapture.Event) :
    ((AreaCapture.runEvents AreaCapture.startedState es).2.length ≤ 1 ∧
     ∀ f ∈ (AreaCapture.runEvents AreaCapture.startedState es).2,
       AreaCapture.tornDown f.2 ∧
       (AreaCapture.startFn f.2 5 6).1 = Except.ok ()) ∧
    (∀ s : AreaCapture.State, s.isActive = true →
       ∀ cb, s.onCancelCallback = some cb →
       (AreaCapture.step s AreaCapture.Event.keyEscape).2 =
         [(AreaCapture.Fired.cancel cb, AreaCapture.initState)]) ∧
    (∀ s : AreaCapture.State, s.isActive = true → s.isDrawing = true →
       ∀ cb, s.onCompleteCallback = some cb →
       ¬((AreaCapture.getSelectedArea s).width < 10 ∨
         (AreaCapture.getSelectedArea s).height < 10) →
       (AreaCapture.step s AreaCapture.Event.mouseUp).2 =
         [(AreaCapture.Fired.complete cb (AreaCapture.getSelectedArea s),
           AreaCapture.initState)]) := by
  refine ⟨?_, ?_, ?_⟩
  · have hinv : AreaCapture.callbacksClearedWhenInactive AreaCapture.startedState := by
      intro h
      exact absurd h (by decide)
    obtain ⟨hlen, hf⟩ := runEvents_inv es AreaCapture.startedState hinv
    refine ⟨hlen, ?_⟩
    intro f hmem
    have ht := hf f hmem
    refine ⟨ht, ?_⟩
    simp [AreaCapture.startFn, ht.1]
  · intro s ha cb hk
    have hstep : AreaCapture.step s AreaCapture.Event.keyEscape =
        (AreaCapture.initState, [(AreaCapture.Fired.cancel cb, AreaCapture.initState)]) := by
      show AreaCapture.handleKeyDown s = _
      unfold AreaCapture.handleKeyDown
      rw [ha]
      simp only [if_true]
      unfold AreaCapture.cancelFn
      rw [hk, stop_active_eq s ha]
    rw [hstep]
  · intro s ha hd cb hk hbig
    obtain ⟨act, dr, ov, sv, x1, y1, x2, y2, k1, k2⟩ := s
    subst ha
    subst hd
    subst hk
    have hbig2 : ¬((AreaCapture.getSelectedArea
          ⟨true, false, ov, sv, x1, y1, x2, y2, some cb, k2⟩).width < 10 ∨
        (AreaCapture.getSelectedArea
          ⟨true, false, ov, sv, x1, y1, x2, y2, some cb, k2⟩).height < 10) := hbig
    have hstep : AreaCapture.step
        ⟨true, true, ov, sv, x1, y1, x2, y2, some cb, k2⟩ AreaCapture.Event.mouseUp =
        (AreaCapture.initState,
         [(AreaCapture.Fired.complete cb
             (AreaCapture.getSelectedArea
               ⟨true, false, ov, sv, x1, y1, x2, y2, some cb, k2⟩),
           AreaCapture.initState)]) := by
      show AreaCapture.handleMouseUp _ = _
      unfold AreaCapture.handleMouseUp
      simp only [Bool.and_self, if_true]
      rw [if_neg hbig2]
      rfl
    rw [hstep]
    rfl

/-- Witness for C5: a full drag from (0,0) to (50,60) fires the completion
callback once, on the reset state. -/
theorem c5_witness :
    AreaCapture.tornDown AreaCapture.initState ∧
    (AreaCapture.runEvents AreaCapture.startedState
      [AreaCapture.Event.mouseDown 0 0, AreaCapture.Event.mouseMove 50 60,
       AreaCapture.Event.mouseUp]).2.length ≤ 1 := by
  have h := c5_single_callback_after_teardown
    [AreaCapture.Event.mouseDown 0 0, AreaCapture.Event.mouseMove 50 60,
     AreaCapture.Event.mouseUp]
  refine ⟨?_, h.1.1⟩
  exact (h.1.2 (AreaCapture.Fired.complete 1 ⟨0, 0, 50, 60⟩, AreaCapture.initState)
    (by decide)).1

/-! ## C2 and C3: crop validation, bounds and dimensions -/

/-- Characterization of isValidArea: true exactly when all four properties
are present and numeric, the dimensions positive and the coordinates
non-negative. -/
theorem isValidArea_iff (a : ImageCropper.JsArea) :
    ImageCropper.isValidArea a = true ↔
    ∃ x y w h : Int, a.x = some x ∧ a.y = some y ∧ a.width = some w ∧
      a.height = some h ∧ 0 < w ∧ 0 < h ∧ 0 ≤ x ∧ 0 ≤ y := by
  obtain ⟨xo, yo, wo, ho⟩ := a
  cases xo <;> cases yo <;> cases wo <;> cases ho <;>
    simp [ImageCropper.isValidArea]
  omega

/-- On a validated area, cropCore is performCrop on the four numbers. -/
theorem cropCore_eq_performCrop (img : ImageCropper.RasterImage) (x y w h : Int)
    (hv : ImageCropper.isValidArea ⟨some x, some y, some w, some h⟩ = true) :
    ImageCropper.cropCore img ⟨some x, some y, some w, some h⟩ =
      ImageCropper.performCrop img x y w h := by
  simp [ImageCropper.cropCore, hv]

/-- On an invalid area, cropCore reports the invalid-area error. -/
theorem cropCore_invalid (img : ImageCropper.RasterImage) (a : ImageCropper.JsArea)
    (hv : ImageCropper.isValidArea a = false) :
    ImageCropper.cropCore img a = Except.error ImageCropper.CropError.invalidArea := by
  simp [ImageCropper.cropCore, hv]

/-- Claim C2: crop fails with the invalid-area error whenever the rectangle
misses a property or has non-positive dimensions or negative coordinates;
fails with the bounds error whenever the rectangle extends past the source
dimensions; and a success implies the rectangle was entirely in bounds with
the output dimensions exactly the requested ones — no silent clamping. -/
theorem c2_crop_error_conditions (img : ImageCropper.RasterImage)
    (a : ImageCropper.JsArea) :
    ((a.x = none ∨ a.y = none ∨ a.width = none ∨ a.height = none ∨
      (∃ w, a.width = some w ∧ w ≤ 0) ∨ (∃ h, a.height = some h ∧ h ≤ 0) ∨
      (∃ x, a.x = some x ∧ x < 0) ∨ (∃ y, a.y = some y ∧ y < 0)) →
      ImageCropper.cropCore img a = Except.error ImageCropper.CropError.invalidArea) ∧
    (∀ x y w h : Int,
      a = ⟨some x, some y, some w, some h⟩ →
      ImageCropper.isValidArea a = true →
      (img.width < x + w ∨ img.height < y + h) →
      ImageCropper.cropCore img a = Except.error ImageCropper.CropError.boundsExceeded) ∧
    (∀ u, ImageCropper.cropCore img a = Except.ok u →
      ∃ x y w h : Int, a = ⟨some x, some y, some w, some h⟩ ∧
        0 ≤ x ∧ 0 ≤ y ∧ 0 < w ∧ 0 < h ∧
        x + w ≤ img.width ∧ y + h ≤ img.height ∧
        u.img.width = w ∧ u.img.height = h) := by
  obtain ⟨xo, yo, wo, ho⟩ := a
  refine ⟨?_, ?_, ?_⟩
  · intro hcond
    cases hvb : ImageCropper.isValidArea ⟨xo, yo, wo, ho⟩ with
    | false => exact cropCore_invalid img _ hvb
    | true =>
      obtain ⟨x, y, w, h, hx, hy, hw, hh, hw0, hh0, hx0, hy0⟩ :=
        (isValidArea_iff ⟨xo, yo, wo, ho⟩).1 hvb
      simp only at hx hy hw hh
      rcases hcond with hc | hc | hc | hc | ⟨w2, hc, hc2⟩ | ⟨h2, hc, hc2⟩ |
        ⟨x2, hc, hc2⟩ | ⟨y2, hc, hc2⟩ <;> simp only at hc
      · rw [hc] at hx; cases hx
      · rw [hc] at hy; cases hy
      · rw [hc] at hw; cases hw
      · rw [hc] at hh; cases hh
      · rw [hc] at hw; injection hw with he; omega
      · rw [hc] at hh; injection hh with he; omega
      · rw [hc] at hx; injection hx with he; omega
      · rw [hc] at hy; injection hy with he; omega
  · intro x y w h heq hv hexceed
    injection heq with e1 e2 e3 e4
    subst e1
    subst e2
    subst e3
    subst e4
    rw [cropCore_eq_performCrop img x y w h hv]
    unfold ImageCropper.performCrop
    rw [if_pos hexceed]
  · intro u hok
    cases hvb : ImageCropper.isValidArea ⟨xo, yo, wo, ho⟩ with
    | false => rw [cropCore_invalid img _ hvb] at hok; cases hok
    | true =>
      obtain ⟨x, y, w, h, hx, hy, hw, hh, hw0, hh0, hx0, hy0⟩ :=
        (isValidArea_iff ⟨xo, yo, wo, ho⟩).1 hvb
      simp only at hx hy hw hh
      subst hx
      subst hy
      subst hw
      subst hh
      rw [cropCore_eq_performCrop img x y w h hvb] at hok
      unfold ImageCropper.performCrop at hok
      by_cases hb : x + w > img.width ∨ y + h > img.height
      · rw [if_pos hb] at hok; cases hok
      · rw [if_neg hb] at hok
        cases hok
        exact ⟨x, y, w, h, rfl, hx0, hy0, hw0, hh0, by omega, by omega, rfl, rfl⟩

/-- Witness for C2 at the spec test case: the area with x = -1 fails with
the invalid-area error on the sample image. -/
theorem c2_witness :
    ImageCropper.cropCore ImageCropper.sampleImage
      ⟨some (-1), some 0, some 10, some 10⟩ =
      Except.error ImageCropper.CropError.invalidArea :=
  (c2_crop_error_conditions ImageCropper.sampleImage
    ⟨some (-1), some 0, some 10, some 10⟩).1
    (Or.inr (Or.inr (Or.inr (Or.inr (Or.inr (Or.inr
      (Or.inl ⟨-1, rfl, by decide⟩)))))))

/-- Claim C3: for every image and every valid in-bounds rectangle, crop
succeeds, the output raster has exactly the requested dimensions, and
getImageDimensions on the encoded result reports exactly those dimensions. -/
theorem c3_crop_dimensions (img : ImageCropper.RasterImage) (x y w h : Int)
    (hv : ImageCropper.isValidArea ⟨some x, some y, some w, some h⟩ = true)
    (hbx : x + w ≤ img.width) (hby : y + h ≤ img.height) :
    ∃ u, ImageCropper.cropCore img ⟨some x, some y, some w, some h⟩ = Except.ok u ∧
      u.img.width = w ∧ u.img.height = h ∧
      ImageCropper.getImageDimensions u = ⟨w, h⟩ := by
  refine ⟨⟨⟨w, h, fun i j => img.pix (x + i) (y + j)⟩⟩, ?_, rfl, rfl, rfl⟩
  rw [cropCore_eq_performCrop img x y w h hv]
  unfold ImageCropper.performCrop
  rw [if_neg (by omega)]

/-- Witness for C3: cropping the 100 by 80 sample image at (5,6) with size
10 by 20 succeeds and the result reports dimensions 10 by 20. -/
theorem c3_witness :
    ∃ u, ImageCropper.cropCore ImageCropper.sampleImage
        ⟨some 5, some 6, some 10, some 20⟩ = Except.ok u ∧
      ImageCropper.getImageDimensions u = ⟨10, 20⟩ := by
  obtain ⟨u, h1, h2, h3, h4⟩ :=
    c3_crop_dimensions ImageCropper.sampleImage 5 6 10 20 (by decide)
      (by decide) (by decide)
  exact ⟨u, h1, h4⟩

/-! ## C7: the five-minute expiry window -/

/-- Reduction of getLatestScreenshot on a stored pair. -/
theorem getLatestScreenshot_some_eq (data : String) (ts : Int)
    (a0 : Option AreaCapture.Area) (now : Int) :
    StorageManager.getLatestScreenshot ⟨some data, some ts, a0⟩ now =
      (if data = "" ∨ ts = 0 then (none, ⟨some data, some ts, a0⟩)
       else if now - ts > StorageManager.screenshotExpiryTime then
         (none, StorageManager.clearScreenshot ⟨some data, some ts, a0⟩)
       else (some ⟨data, ts, now - ts⟩, ⟨some data, some ts, a0⟩)) := rfl

/-- Claim C7: reading the persisted screenshot when the stored timestamp is
more than five minutes (5*60*1000 ms) older than the current time reports
the artifact as absent (null) and clears the stored pair as a side effect. -/
theorem c7_expired_screenshot_cleared (st : StorageManager.LocalStorage)
    (data : String) (ts now : Int)
    (hd : st.latestScreenshot = some data) (hne : data ≠ "")
    (ht : st.screenshotTimestamp = some ts) (htz : ts ≠ 0)
    (hage : now - ts > StorageManager.screenshotExpiryTime) :
    StorageManager.getLatestScreenshot st now =
      (none, StorageManager.clearScreenshot st) := by
  obtain ⟨d0, t0, a0⟩ := st
  simp only at hd ht
  subst hd
  subst ht
  rw [getLatestScreenshot_some_eq]
  rw [if_neg ?hfalsy]
  case hfalsy =>
    rintro (hc | hc)
    · exact hne hc
    · exact htz hc
  rw [if_pos hage]

/-- Witness for C7: a pair stored at t = 1000000 read six minutes later is
reported absent and removed from storage. -/
theorem c7_witness :
    StorageManager.getLatestScreenshot
      ⟨some "img", some 1000000, none⟩ (1000000 + 6 * 60 * 1000) =
      (none, ⟨none, none, none⟩) :=
  c7_expired_screenshot_cleared ⟨some "img", some 1000000, none⟩ "img"
    1000000 (1000000 + 6 * 60 * 1000) rfl (by decide) rfl (by decide) (by decide)

/-! ## C10: completed selections always pass the cropper validation -/

/-- Non-negative pointer coordinates keep the stored coordinates
non-negative across any event. -/
theorem step_coordsNonneg (s : AreaCapture.State) (e : AreaCapture.Event)
    (hs : AreaCapture.coordsNonneg s) (he : AreaCapture.evNonneg e) :
    AreaCapture.coordsNonneg (AreaCapture.step s e).1 := by
  obtain ⟨act, dr, ov, sv, x1, y1, x2, y2, k1, k2⟩ := s
  obtain ⟨h1, h2, h3, h4⟩ := hs
  cases e with
  | mouseDown x y =>
    obtain ⟨hx, hy⟩ := he
    cases act <;>
      simp_all [AreaCapture.step, AreaCapture.handleMouseDown, AreaCapture.coordsNonneg]
  | mouseMove x y =>
    obtain ⟨hx, hy⟩ := he
    cases act <;> cases dr <;>
      simp_all [AreaCapture.step, AreaCapture.handleMouseMove, AreaCapture.coordsNonneg]
  | mouseUp =>
    cases act with
    | false =>
      exact ⟨h1, h2, h3, h4⟩
    | true =>
      cases dr with
      | false =>
        exact ⟨h1, h2, h3, h4⟩
      | true =>
        by_cases hsm :
          (AreaCapture.getSelectedArea
            ⟨true, false, ov, sv, x1, y1, x2, y2, k1, k2⟩).width < 10 ∨
          (AreaCapture.getSelectedArea
            ⟨true, false, ov, sv, x1, y1, x2, y2, k1, k2⟩).height < 10
        · have hstep : (AreaCapture.step
              ⟨true, true, ov, sv, x1, y1, x2, y2, k1, k2⟩ AreaCapture.Event.mouseUp).1 =
              ⟨true, false, ov, false, x1, y1, x2, y2, k1, k2⟩ := by
            show (AreaCapture.handleMouseUp _).1 = _
            unfold AreaCapture.handleMouseUp
            simp only [Bool.and_self, if_true]
            rw [if_pos hsm]
          rw [hstep]
          exact ⟨h1, h2, h3, h4⟩
        · have hstep : (AreaCapture.step
              ⟨true, true, ov, sv, x1, y1, x2, y2, k1, k2⟩ AreaCapture.Event.mouseUp).1 =
              AreaCapture.stop ⟨true, false, ov, sv, x1, y1, x2, y2, k1, k2⟩ := by
            show (AreaCapture.handleMouseUp _).1 = _
            unfold AreaCapture.handleMouseUp
            simp only [Bool.and_self, if_true]
            rw [if_neg hsm]
            cases k1 <;> rfl
          rw [hstep, stop_active_eq _ rfl]
          exact ⟨le_refl 0, le_refl 0, le_refl 0, le_refl 0⟩
  | keyEscape =>
    cases act with
    | false => exact ⟨h1, h2, h3, h4⟩
    | true =>
      have hstep : (AreaCapture.step
          ⟨true, dr, ov, sv, x1, y1, x2, y2, k1, k2⟩ AreaCapture.Event.keyEscape).1 =
          AreaCapture.initState := by
        cases k2 <;> rfl
      rw [hstep]
      exact ⟨le_refl 0, le_refl 0, le_refl 0, le_refl 0⟩
  | cancelCall =>
    cases act with
    | false =>
      have hstep : (AreaCapture.step
          ⟨false, dr, ov, sv, x1, y1, x2, y2, k1, k2⟩ AreaCapture.Event.cancelCall).1 =
          ⟨false, dr, ov, sv, x1, y1, x2, y2, k1, k2⟩ := by
        cases k2 <;> rfl
      rw [hstep]
      exact ⟨h1, h2, h3, h4⟩
    | true =>
      have hstep : (AreaCapture.step
          ⟨true, dr, ov, sv, x1, y1, x2, y2, k1, k2⟩ AreaCapture.Event.cancelCall).1 =
          AreaCapture.initState := by
        cases k2 <;> rfl
      rw [hstep]
      exact ⟨le_refl 0, le_refl 0, le_refl 0, le_refl 0⟩
  | stopCall =>
    cases act with
    | false => exact ⟨h1, h2, h3, h4⟩
    | true =>
      show AreaCapture.coordsNonneg (AreaCapture.stop _)
      rw [stop_active_eq _ rfl]
      exact ⟨le_refl 0, le_refl 0, le_refl 0, le_refl 0⟩

/-- Any completion fired by one step out of a state with non-negative
coordinates carries non-negative origin and dimensions of at least 10. -/
theorem step_complete_bounds (s : AreaCapture.State) (e : AreaCapture.Event)
    (hs : AreaCapture.coordsNonneg s) :
    ∀ f ∈ (AreaCapture.step s e).2, ∀ cb a, f.1 = AreaCapture.Fired.complete cb a →
      0 ≤ a.x ∧ 0 ≤ a.y ∧ 10 ≤ a.width ∧ 10 ≤ a.height := by
  obtain ⟨act, dr, ov, sv, x1, y1, x2, y2, k1, k2⟩ := s
  obtain ⟨h1, h2, h3, h4⟩ := hs
  cases e with
  | mouseDown x y =>
    cases act <;> simp [AreaCapture.step, AreaCapture.handleMouseDown]
  | mouseMove x y =>
    cases act <;> cases dr <;> simp [AreaCapture.step, AreaCapture.handleMouseMove]
  | mouseUp =>
    cases act with
    | false => simp [AreaCapture.step, AreaCapture.handleMouseUp]
    | true =>
      cases dr with
      | false => simp [AreaCapture.step, AreaCapture.handleMouseUp]
      | true =>
        by_cases hsm :
          (AreaCapture.getSelectedArea
            ⟨true, false, ov, sv, x1, y1, x2, y2, k1, k2⟩).width < 10 ∨
          (AreaCapture.getSelectedArea
            ⟨true, false, ov, sv, x1, y1, x2, y2, k1, k2⟩).height < 10
        · have hstep : (AreaCapture.step
              ⟨true, true, ov, sv, x1, y1, x2, y2, k1, k2⟩ AreaCapture.Event.mouseUp).2 =
              [] := by
            show (AreaCapture.handleMouseUp _).2 = _
            unfold AreaCapture.handleMouseUp
            simp only [Bool.and_self, if_true]
            rw [if_pos hsm]
          rw [hstep]
          simp
        · push_neg at hsm
          cases k1 with
          | none =>
            have hstep : (AreaCapture.step
                ⟨true, true, ov, sv, x1, y1, x2, y2, none, k2⟩
                  AreaCapture.Event.mouseUp).2 = [] := by
              show (AreaCapture.handleMouseUp _).2 = _
              unfold AreaCapture.handleMouseUp
              simp only [Bool.and_self, if_true]
              rw [if_neg (by push_neg; exact hsm)]
              rfl
            rw [hstep]
            simp
          | some cb0 =>
            have hstep : (AreaCapture.step
                ⟨true, true, ov, sv, x1, y1, x2, y2, some cb0, k2⟩
                  AreaCapture.Event.mouseUp).2 =
                [(AreaCapture.Fired.complete cb0
                    (AreaCapture.getSelectedArea
                      ⟨true, false, ov, sv, x1, y1, x2, y2, some cb0, k2⟩),
                  AreaCapture.initState)] := by
              show (AreaCapture.handleMouseUp _).2 = _
              unfold AreaCapture.handleMouseUp
              simp only [Bool.and_self, if_true]
              rw [if_neg (by push_neg; exact hsm)]
              rfl
            rw [hstep]
            intro f hf cb a heq
            simp only [List.mem_singleton] at hf
            subst hf
            simp only at heq
            cases heq
            refine ⟨le_min h1 h3, le_min h2 h4, ?_, ?_⟩
            · exact hsm.1
            · exact hsm.2
  | keyEscape =>
    cases act with
    | false => simp [AreaCapture.step, AreaCapture.handleKeyDown]
    | true =>
      cases k2 with
      | none =>
        intro f hf
        have : (AreaCapture.step
            ⟨true, dr, ov, sv, x1, y1, x2, y2, k1, none⟩
              AreaCapture.Event.keyEscape).2 = [] := rfl
        rw [this] at hf
        cases hf
      | some cb0 =>
        intro f hf cb a heq
        have : (AreaCapture.step
            ⟨true, dr, ov, sv, x1, y1, x2, y2, k1, some cb0⟩
              AreaCapture.Event.keyEscape).2 =
            [(AreaCapture.Fired.cancel cb0, AreaCapture.initState)] := rfl
        rw [this] at hf
        simp only [List.mem_singleton] at hf
        subst hf
        cases heq
  | cancelCall =>
    cases act with
    | false =>
      cases k2 with
      | none =>
        intro f hf
        have : (AreaCapture.step
            ⟨false, dr, ov, sv, x1, y1, x2, y2, k1, none⟩
              AreaCapture.Event.cancelCall).2 = [] := rfl
        rw [this] at hf
        cases hf
      | some cb0 =>
        intro f hf cb a heq
        have : (AreaCapture.step
            ⟨false, dr, ov, sv, x1, y1, x2, y2, k1, some cb0⟩
              AreaCapture.Event.cancelCall).2 =
            [(AreaCapture.Fired.cancel cb0,
              ⟨false, dr, ov, sv, x1, y1, x2, y2, k1, some cb0⟩)] := rfl
        rw [this] at hf
        simp only [List.mem_singleton] at hf
        subst hf
        cases heq
    | true =>
      cases k2 with
      | none =>
        intro f hf
        have : (AreaCapture.step
            ⟨true, dr, ov, sv, x1, y1, x2, y2, k1, none⟩
              AreaCapture.Event.cancelCall).2 = [] := rfl
        rw [this] at hf
        cases hf
      | some cb0 =>
        intro f hf cb a heq
        have : (AreaCapture.step
            ⟨true, dr, ov, sv, x1, y1, x2, y2, k1, some cb0⟩
              AreaCapture.Event.cancelCall).2 =
            [(AreaCapture.Fired.cancel cb0, AreaCapture.initState)] := rfl
        rw [this] at hf
        simp only [List.mem_singleton] at hf
        subst hf
        cases heq
  | stopCall =>
    cases act <;> simp [AreaCapture.step]

/-- Over any event list with non-negative pointer coordinates, every fired
completion carries a rectangle with non-negative origin and both dimensions
at least 10. -/
theorem runEvents_complete_bounds (es : List AreaCapture.Event)
    (s : AreaCapture.State) (hs : AreaCapture.coordsNonneg s)
    (he : ∀ e ∈ es, AreaCapture.evNonneg e) :
    ∀ f ∈ (AreaCapture.runEvents s es).2,
      ∀ cb a, f.1 = AreaCapture.Fired.complete cb a →
      0 ≤ a.x ∧ 0 ≤ a.y ∧ 10 ≤ a.width ∧ 10 ≤ a.height := by
  induction es generalizing s with
  | nil => simp [runEvents_nil]
  | cons e es ih =>
    rw [runEvents_cons]
    intro f hf cb a heq
    simp only [List.mem_append] at hf
    cases hf with
    | inl h => exact step_complete_bounds s e hs f h cb a heq
    | inr h =>
      exact ih (AreaCapture.step s e).1
        (step_coordsNonneg s e hs (he e (List.mem_cons_self e es)))
        (fun e2 he2 => he e2 (List.mem_cons_of_mem e he2)) f h cb a heq

/-- Claim C10: for every pointer sequence with non-negative client
coordinates on a started session, any area handed to the onComplete
callback passes the cropper validation (all four properties numeric,
width and height at least 10 hence positive, origin non-negative), so
cropping a completed selection can never fail with the invalid-area
error — only on image bounds. -/
theorem c10_completed_area_valid (es : List AreaCapture.Event)
    (he : ∀ e ∈ es, AreaCapture.evNonneg e) :
    ∀ f ∈ (AreaCapture.runEvents AreaCapture.startedState es).2,
      ∀ cb a, f.1 = AreaCapture.Fired.complete cb a →
      ImageCropper.isValidArea (ImageCropper.toJsArea a) = true ∧
      10 ≤ a.width ∧ 10 ≤ a.height ∧
      ∀ img : ImageCropper.RasterImage,
        ImageCropper.cropCore img (ImageCropper.toJsArea a) ≠
          Except.error ImageCropper.CropError.invalidArea := by
  intro f hf cb a heq
  have hs0 : AreaCapture.coordsNonneg AreaCapture.startedState :=
    ⟨le_refl 0, le_refl 0, le_refl 0, le_refl 0⟩
  obtain ⟨hx, hy, hw, hh⟩ :=
    runEvents_complete_bounds es AreaCapture.startedState hs0 he f hf cb a heq
  have hv : ImageCropper.isValidArea (ImageCropper.toJsArea a) = true := by
    rw [isValidArea_iff]
    exact ⟨a.x, a.y, a.width, a.height, rfl, rfl, rfl, rfl,
      by omega, by omega, hx, hy⟩
  refine ⟨hv, hw, hh, ?_⟩
  intro img
  have hcc : ImageCropper.cropCore img (ImageCropper.toJsArea a) =
      ImageCropper.performCrop img a.x a.y a.width a.height :=
    cropCore_eq_performCrop img a.x a.y a.width a.height hv
  rw [hcc]
  unfold ImageCropper.performCrop
  split
  · simp
  · simp

/-- Witness for C10: the drag from (0,0) to (100,200) completes with the
rectangle (0,0,100,200), which passes the cropper validation. -/
theorem c10_witness :
    ImageCropper.isValidArea (ImageCropper.toJsArea ⟨0, 0, 100, 200⟩) = true ∧
    (10 : Int) ≤ (AreaCapture.Area.mk 0 0 100 200).width := by
  have h := c10_completed_area_valid
    [AreaCapture.Event.mouseDown 0 0, AreaCapture.Event.mouseMove 100 200,
     AreaCapture.Event.mouseUp]
    (by intro e he; fin_cases he <;> simp [AreaCapture.evNonneg])
    (AreaCapture.Fired.complete 1 ⟨0, 0, 100, 200⟩, AreaCapture.initState)
    (by decide) 1 ⟨0, 0, 100, 200⟩ rfl
  exact ⟨h.1, h.2.1⟩
